import Mathlib

/-!
Verification of the Agent-hub coordination layer against its specification.

The development shallowly embeds the Python source:
* `Hub`      — `backend/app/websocket/connection_manager.py` (`ConnectionManager`)
* `Events`   — `backend/app/websocket/events.py` (dispatch loop, `message:send`)
* `TaskSvc`  — `backend/app/services/task_service.py` (`assign_task`, `complete_task`)
* `Bot`      — `memu-bot/bot.py` (pipeline orchestrator: timeout sweep, QA retries,
               rate-limit cooldowns, watchdog)

Python dictionaries are modelled as association lists in insertion order:
assignment to an existing key replaces its value in place, assignment to a
fresh key appends, deletion removes the entry.  Machine time is modelled with
natural-number timestamps; the transport layer (a websocket's `send_json`
succeeding or raising) is abstracted by a boolean on the connection handle,
and exceptions raised by fallible Python calls are explicit in the types.
-/

/-- Python `d.get(k)` on a dict modelled as an insertion-ordered assoc list. -/
def dget : List (String × α) → String → Option α
  | [], _ => none
  | p :: rest, k => if p.1 == k then some p.2 else dget rest k

/-- Python `d[k] = v`: replace in place when the key is present, else append. -/
def dset : List (String × α) → String → α → List (String × α)
  | [], k, v => [(k, v)]
  | p :: rest, k, v => if p.1 == k then (k, v) :: rest else p :: dset rest k v

/-- Python `del d[k]` (a dict holds its key at most once). -/
def ddel : List (String × α) → String → List (String × α)
  | [], _ => []
  | p :: rest, k => if p.1 == k then rest else p :: ddel rest k

/-- The keys of a dict, in insertion order. -/
def dkeys (d : List (String × α)) : List String :=
  d.map Prod.fst

/-- The keys of a dict are pairwise distinct (always true of a Python dict;
the invariant of the assoc-list model). -/
def keysNodup (d : List (String × α)) : Prop :=
  (dkeys d).Nodup

instance (d : List (String × α)) : Decidable (keysNodup d) := by
  unfold keysNodup; infer_instance

/-! ## Connection Hub — `backend/app/websocket/connection_manager.py` -/

namespace Hub

/-- A live websocket channel.  `sendOk` abstracts the transport: `send_json`
succeeds when it is `true` and raises when it is `false`. -/
structure WS where
  sendOk : Bool
  deriving DecidableEq, Repr

/-- `ConnectionManager` state: `active_connections` and `connection_metadata`,
both keyed by agent id.  Metadata is abstracted to its `connected_at` stamp. -/
structure CMState where
  active_connections : List (String × WS)
  connection_metadata : List (String × Nat)
  deriving DecidableEq, Repr

/-- A send that reached a channel, as `(agent_id, event tag)`. -/
abbrev Sent := String × String

/-- `ConnectionManager.connect`: accept the socket and store it under the
agent id, recording metadata (a second registration overwrites the first). -/
def connect (cm : CMState) (agent_id : String) (websocket : WS) (now : Nat) : CMState :=
  { active_connections := dset cm.active_connections agent_id websocket,
    connection_metadata := dset cm.connection_metadata agent_id now }

/-- `ConnectionManager.disconnect`: drop the handle and metadata when the
agent is registered; a no-op otherwise. -/
def disconnect (cm : CMState) (agent_id : String) : CMState :=
  if (dget cm.active_connections agent_id).isSome then
    { active_connections := ddel cm.active_connections agent_id,
      connection_metadata := ddel cm.connection_metadata agent_id }
  else cm

/-- `ConnectionManager.send_personal_message`: deliver to a registered agent;
a transport failure disconnects the agent and returns `False`; an unknown
agent id returns `False` with no effect. -/
def send_personal_message (cm : CMState) (tag : String) (agent_id : String) :
    CMState × Bool × List Sent :=
  match dget cm.active_connections agent_id with
  | some ws =>
      if ws.sendOk then (cm, true, [(agent_id, tag)])
      else (disconnect cm agent_id, false, [])
  | none => (cm, false, [])

/-- `ConnectionManager.send_to_agents`: sequential
`send_personal_message` per id, never failing fast. -/
def send_to_agents (cm : CMState) (tag : String) (agent_ids : List String) :
    CMState × List Sent :=
  match agent_ids with
  | [] => (cm, [])
  | a :: rest =>
      let r1 := send_personal_message cm tag a
      let r2 := send_to_agents r1.1 tag rest
      (r2.1, r1.2.2 ++ r2.2)

/-- The skip test of `broadcast`'s loop, `if exclude_agent_id and
agent_id == exclude_agent_id`: Python truthiness makes `None` and the empty
string both skip nothing. -/
def bskip (excl : Option String) (agent_id : String) : Bool :=
  match excl with
  | some e => e != "" && agent_id == e
  | none => false

/-- The iteration of `broadcast` over the snapshot of
`active_connections.items()`: returns the deliveries made and the agents
whose send raised, both in iteration order. -/
def broadcastPass (tag : String) (excl : Option String) :
    List (String × WS) → List Sent × List String
  | [] => ([], [])
  | (a, ws) :: rest =>
      if bskip excl a then broadcastPass tag excl rest
      else
        let r := broadcastPass tag excl rest
        if ws.sendOk then ((a, tag) :: r.1, r.2) else (r.1, a :: r.2)

/-- `ConnectionManager.broadcast`: snapshot the connection list, push to every
non-excluded agent, then disconnect the agents whose send failed. -/
def broadcast (cm : CMState) (tag : String) (excl : Option String) :
    CMState × List Sent :=
  let pass := broadcastPass tag excl cm.active_connections
  (pass.2.foldl (fun s a => disconnect s a) cm, pass.1)

end Hub

/-! ## Event Router — `backend/app/websocket/events.py` -/

namespace Events

/-- One item arriving on a registered connection, as seen by the
`while True` body of `handle_agent_websocket`:
* `msg tag handlerRaises` — `receive_json` returned an envelope whose
  `event` field is `tag`; `handlerRaises` records whether executing the
  dispatched handler raises (handlers call out to the database and the hub,
  so any dispatched handler may raise);
* `malformed` — `receive_json` raised on an undecodable payload;
* `disconnect` — `receive_json` raised `WebSocketDisconnect`. -/
inductive Inbound where
  | msg (tag : String) (handlerRaises : Bool)
  | malformed
  | disconnect
  deriving DecidableEq, Repr

/-- Why the dispatch loop of `handle_agent_websocket` exited. -/
inductive ExitReason where
  | wsDisconnect
  | otherError
  deriving DecidableEq, Repr

/-- The event tags `process_agent_event` dispatches to a handler; any other
tag falls to the `else` branch, which only logs a warning. -/
def knownTag (tag : String) : Bool :=
  tag == "agent:register" || tag == "agent:heartbeat" || tag == "message:send" ||
  tag == "task:create" || tag == "task:assign" || tag == "task:update" ||
  tag == "memory:set" || tag == "memory:get"

/-- Outcome of running the dispatch loop on a (prefix of a) connection's
inbound sequence.  `exit = none` means the loop is still awaiting input;
`disconnected` and `leftBroadcast` record whether the `except` clauses ran
`manager.disconnect` and the `agent:left` broadcast. -/
structure LoopResult where
  processed : Nat
  exit : Option ExitReason
  disconnected : Bool
  leftBroadcast : Bool
  deriving DecidableEq, Repr

/-- The `while True` loop of `handle_agent_websocket` together with its two
`except` clauses: `receive_json`, then `process_agent_event`.  There is no
`try` inside the loop body, so the first raising item reaches the `except`
clauses, which disconnect the agent and broadcast `agent:left`. -/
def runLoop : List Inbound → LoopResult
  | [] => ⟨0, none, false, false⟩
  | item :: rest =>
    match item with
    | .disconnect => ⟨0, some .wsDisconnect, true, true⟩
    | .malformed => ⟨0, some .otherError, true, true⟩
    | .msg tag handlerRaises =>
        if handlerRaises && knownTag tag then ⟨0, some .otherError, true, true⟩
        else
          let r := runLoop rest
          ⟨r.processed + 1, r.exit, r.disconnected, r.leftBroadcast⟩

/-- An inbound item on which the loop body raises, ending the loop. -/
def inboundTerminates : Inbound → Bool
  | .msg tag handlerRaises => handlerRaises && knownTag tag
  | .malformed => true
  | .disconnect => true

/-- Data of a `message:send` event (`data.get("content")`,
`data.get("recipients", [])`). -/
structure MsgData where
  content : String
  recipients : List String
  deriving DecidableEq, Repr

/-- `handle_message_send`: persist the message through the message-store
collaborator, deliver to the named recipients when the list is non-empty
(`if recipients:`), then acknowledge the sender with `message:sent`.
Returns the hub state, the message store, and the sends in order. -/
def handle_message_send (cm : Hub.CMState) (store : List (String × String))
    (agent_id : String) (data : MsgData) :
    Hub.CMState × List (String × String) × List Hub.Sent :=
  let store1 := store ++ [(agent_id, data.content)]
  let deliver :=
    if data.recipients.isEmpty then (cm, [])
    else Hub.send_to_agents cm "message:received" data.recipients
  let ack := Hub.send_personal_message deliver.1 "message:sent" agent_id
  (ack.1, store1, deliver.2 ++ ack.2.2)

end Events

/-! ## Task & Assignment state machine — `backend/app/services/task_service.py` -/

namespace TaskSvc

/-- A value in a task's free-form `requirements` JSON map: either a scalar
rendered as a string, or a nested object (the shape `complete_task` merges
in under `"result"`). -/
inductive RVal where
  | s (v : String)
  | d (v : List (String × String))
  deriving DecidableEq, Repr

/-- Row of the `tasks` table, with the columns the state machine touches. -/
structure Task where
  id : String
  creator_id : String
  title : String
  status : String
  priority : Nat
  created_at : Nat
  due_date : Option Nat
  completed_at : Option Nat
  requirements : List (String × RVal)
  deriving DecidableEq, Repr

/-- Row of the `agents` table (only identity matters here). -/
structure Agent where
  id : String
  deriving DecidableEq, Repr

/-- Row of the `task_assignments` table. -/
structure TaskAssignment where
  id : String
  task_id : String
  agent_id : String
  status : String
  assigned_at : Nat
  completed_at : Option Nat
  deriving DecidableEq, Repr

/-- The database visible to `TaskService`. -/
structure DB where
  tasks : List Task
  agents : List Agent
  assignments : List TaskAssignment
  deriving DecidableEq, Repr

/-- The `ValueError`s `assign_task` raises, in the spec's taxonomy. -/
inductive AssignError where
  | taskNotFound
  | agentNotFound
  | assignmentConflict
  deriving DecidableEq, Repr

/-- `TaskService.get_task`: `SELECT ... WHERE Task.id == task_id`,
`scalar_one_or_none`. -/
def get_task (db : DB) (task_id : String) : Option Task :=
  db.tasks.find? (fun t => t.id == task_id)

/-- The existing-assignment probe of `assign_task` and `complete_task`:
`WHERE task_id == ... AND agent_id == ...`. -/
def find_assignment (db : DB) (task_id agent_id : String) : Option TaskAssignment :=
  db.assignments.find? (fun a => a.task_id == task_id && a.agent_id == agent_id)

/-- In-place mutation of the ORM row fetched by `get_task`: every task row
with this id (unique, as `id` is the primary key) is updated. -/
def set_task (tasks : List Task) (task_id : String) (f : Task → Task) : List Task :=
  tasks.map (fun t => if t.id == task_id then f t else t)

/-- In-place mutation of the single assignment row fetched by
`scalar_one_or_none` (the first match; the pair is unique by invariant). -/
def updFirst (p : α → Bool) (f : α → α) : List α → List α
  | [] => []
  | x :: xs => if p x then f x :: xs else x :: updFirst p f xs

/-- `TaskService.assign_task`: `TaskNotFound` when the task is missing,
`AgentNotFound` when the agent row is missing, `AssignmentConflict` when an
assignment for the pair exists; otherwise add an `assigned` assignment and
set the task's status to `assigned`. -/
def assign_task (db : DB) (task_id agent_id : String) (new_id : String) (now : Nat) :
    Except AssignError (DB × TaskAssignment) :=
  match get_task db task_id with
  | none => .error .taskNotFound
  | some _ =>
    match db.agents.find? (fun a => a.id == agent_id) with
    | none => .error .agentNotFound
    | some _ =>
      match find_assignment db task_id agent_id with
      | some _ => .error .assignmentConflict
      | none =>
        let assignment : TaskAssignment :=
          ⟨new_id, task_id, agent_id, "assigned", now, none⟩
        .ok ({ db with
                tasks := set_task db.tasks task_id (fun t => { t with status := "assigned" }),
                assignments := db.assignments ++ [assignment] },
             assignment)

/-- Python truthiness of the optional `result` dict (`if result:`). -/
def resultTruthy : Option (List (String × String)) → Bool
  | some r => !r.isEmpty
  | none => false

/-- `TaskService.complete_task`: stamp the task `completed`/`completed_at`,
merge a truthy `result` into `requirements` under `"result"`
(`{**task.requirements, "result": result}`), and flip the matching
assignment — if one exists — to `completed`/`completed_at`. -/
def complete_task (db : DB) (task_id agent_id : String)
    (result : Option (List (String × String))) (now : Nat) :
    Option (DB × Task) :=
  match get_task db task_id with
  | none => none
  | some task =>
    let reqs :=
      if resultTruthy result then
        dset task.requirements "result" (RVal.d (result.getD []))
      else task.requirements
    let task1 : Task :=
      { task with status := "completed", completed_at := some now, requirements := reqs }
    let assignments1 :=
      updFirst (fun a => a.task_id == task_id && a.agent_id == agent_id)
        (fun a => { a with status := "completed", completed_at := some now })
        db.assignments
    some ({ db with
             tasks := set_task db.tasks task_id (fun _ => task1),
             assignments := assignments1 },
          task1)

end TaskSvc

/-! ## Pipeline Orchestrator — `memu-bot/bot.py` -/

namespace Bot

def MAX_RETRIES : Nat := 3

def AGENT_TIMEOUT_SECONDS : Nat := 180

def CHECK_STUCK_INTERVAL : Nat := 30

def COOLDOWN_MINUTES : Nat := 5

/-- One entry of `active_projects`: the fields the orchestrator reads and
writes (dict keys with their `get` defaults). -/
structure PData where
  status : String
  requirements : String
  step : String
  retry_count : Nat
  qa1_retries : Nat
  qa2_retries : Nat
  cto_plan : Option String
  developer_output : Option String
  devops_output : Option String
  timeout_at : Nat
  last_attempt : Nat
  deriving DecidableEq, Repr

/-- The `active_projects[task_id] = {...}` initialisation of
`project_command`. -/
def newProject (requirements : String) (now : Nat) : PData :=
  { status := "planning", requirements := requirements, step := "waiting_for_cto",
    retry_count := 0, qa1_retries := 0, qa2_retries := 0,
    cto_plan := none, developer_output := none, devops_output := none,
    timeout_at := now + AGENT_TIMEOUT_SECONDS, last_attempt := now }

/-- The steps the stuck-project sweep watches:
`("waiting_for_cto", "waiting_for_developer", "waiting_for_devops")`. -/
def isWaitingStep (step : String) : Bool :=
  step == "waiting_for_cto" || step == "waiting_for_developer" || step == "waiting_for_devops"

/-- The agent a waiting step expects output from (the recipient of each
branch of `retry_project_step`). -/
def stepResponder (step : String) : String :=
  if step == "waiting_for_cto" then "clawdbot-1"
  else if step == "waiting_for_developer" then "clawdbot-2"
  else "clawdbot-3"

/-- `retry_project_step`: bump `retry_count`, stamp `last_attempt`, reset
`timeout_at`, then re-send the current step's prompt to its responder
(no send when the step matches no branch).  Returns the updated project and
the recipients messaged. -/
def retry_project_step (now : Nat) (p : PData) : PData × List String :=
  let p1 := { p with retry_count := p.retry_count + 1, last_attempt := now,
                     timeout_at := now + AGENT_TIMEOUT_SECONDS }
  let sends :=
    if p.step == "waiting_for_cto" then ["clawdbot-1"]
    else if p.step == "waiting_for_developer" then ["clawdbot-2"]
    else if p.step == "waiting_for_devops" then ["clawdbot-3"]
    else []
  (p1, sends)

/-- The body of `check_stuck_projects` for one project on one sweep: only
waiting steps with `now > timeout_at` act; below `MAX_RETRIES` the step is
retried, otherwise the project is marked `failed` (the Telegram notice is
not a prompt to an agent). -/
def sweepProject (now : Nat) (p : PData) : PData × List String :=
  if isWaitingStep p.step then
    if now > p.timeout_at then
      if p.retry_count < MAX_RETRIES then retry_project_step now p
      else ({ p with step := "failed", status := "failed" }, [])
    else (p, [])
  else (p, [])

/-- One pass of `check_stuck_projects` over `list(active_projects.items())`,
with the prompts of all projects in iteration order. -/
def check_stuck_sweep (now : Nat) (ps : List (String × PData)) :
    List (String × PData) × List String :=
  (ps.map (fun q => (q.1, (sweepProject now q.2).1)),
   (ps.map (fun q => (sweepProject now q.2).2)).flatten)

/-- The project-flow events of `handle_ws_event` and the periodic/manual
drivers, with QA outcomes (`extract_url_from_message`, `run_qa_test`)
abstracted to the booleans the code branches on. -/
inductive PEvent where
  | ctoMsg (content : String)
  | devMsg (content : String) (hasUrl : Bool) (qaPass : Bool)
  | devopsMsg (content : String) (hasUrl : Bool) (qaPass : Bool)
  | sweep (now : Nat)
  | manualRetry (now : Nat)
  deriving DecidableEq, Repr

/-- `handle_ws_event`, CTO branch: a message from `clawdbot-1` while the
project waits for the CTO stores the plan and advances to
`waiting_for_developer`. -/
def handle_cto_message (p : PData) (content : String) : PData :=
  if p.step == "waiting_for_cto" then
    { p with cto_plan := some content, step := "waiting_for_developer" }
  else p

/-- `handle_ws_event`, Developer branch with QA gate 1: store the output and
enter `qa_testing_post_dev`; with no URL the gate auto-passes; on pass
advance to `waiting_for_devops`, on fail return to `waiting_for_developer`
and bump `qa1_retries`. -/
def handle_developer_message (p : PData) (content : String) (hasUrl qaPass : Bool) : PData :=
  if p.step == "waiting_for_developer" then
    let p1 := { p with developer_output := some content, step := "qa_testing_post_dev" }
    let qa_passed := if hasUrl then qaPass else true
    if qa_passed then { p1 with step := "waiting_for_devops" }
    else { p1 with step := "waiting_for_developer", qa1_retries := p1.qa1_retries + 1 }
  else p

/-- `handle_ws_event`, DevOps branch with QA gate 2: store the output and
enter `qa_testing_post_deploy`; with a URL, pass completes the project and
fail returns it to `waiting_for_devops` bumping `qa2_retries`; with no URL
the project is completed with a warning. -/
def handle_devops_message (p : PData) (content : String) (hasUrl qaPass : Bool) : PData :=
  if p.step == "waiting_for_devops" then
    let p1 := { p with devops_output := some content, step := "qa_testing_post_deploy" }
    if hasUrl then
      if qaPass then { p1 with step := "completed" }
      else { p1 with step := "waiting_for_devops", qa2_retries := p1.qa2_retries + 1 }
    else { p1 with step := "completed" }
  else p

/-- All mutations one project can undergo:  routed agent messages, the
periodic sweep, and the manual `/retry` command (which zeroes `retry_count`
before calling `retry_project_step`). -/
def stepProject (p : PData) : PEvent → PData
  | .ctoMsg c => handle_cto_message p c
  | .devMsg c u q => handle_developer_message p c u q
  | .devopsMsg c u q => handle_devops_message p c u q
  | .sweep now => (sweepProject now p).1
  | .manualRetry now => (retry_project_step now { p with retry_count := 0 }).1

/-- The project states reachable from creation through the orchestrator's
own operations. -/
inductive ReachableP : PData → Prop where
  | init (req : String) (now : Nat) : ReachableP (newProject req now)
  | step (p : PData) (e : PEvent) : ReachableP p → ReachableP (stepProject p e)

end Bot

namespace Bot

/-- One entry of `agent_cooldowns`: the expiry timestamp, the snapshot of the
message that triggered the cooldown (`content[:200]`), and the display name. -/
structure Cooldown where
  untilT : Nat
  task : String
  display_name : String
  deriving DecidableEq, Repr

/-- The orchestrator state the cooldown/watchdog machinery touches. -/
structure BotState where
  agent_cooldowns : List (String × Cooldown)
  last_agent_activity : Nat
  active_projects : List (String × PData)
  deriving DecidableEq, Repr

/-- `handle_ws_event`, rate-limit branch: a recognised rate-limit signal from
`sender` records a cooldown until `now + COOLDOWN_MINUTES * 60` holding the
first 200 characters of the message. -/
def observe_rate_limit (st : BotState) (sender content : String) (now : Nat) : BotState :=
  let cd : Cooldown := ⟨now + COOLDOWN_MINUTES * 60, content.take 200, sender⟩
  { st with agent_cooldowns := dset st.agent_cooldowns sender cd }

/-- `AutonomousLoop.trigger_agent`: a trigger to an agent whose cooldown has
positive remaining time is dropped; an expired entry is removed and the
trigger goes through; otherwise the prompt is posted with the
`[SYSTEM TRIGGER]` prefix. -/
def trigger_agent (st : BotState) (agent_id prompt : String) (now : Nat) :
    BotState × List (String × String) :=
  match dget st.agent_cooldowns agent_id with
  | some cd =>
      if now < cd.untilT then (st, [])
      else ({ st with agent_cooldowns := ddel st.agent_cooldowns agent_id },
            [(agent_id, "[SYSTEM TRIGGER] " ++ prompt)])
  | none => (st, [(agent_id, "[SYSTEM TRIGGER] " ++ prompt)])

/-- The fixed re-engagement prompt `AutonomousLoop.watchdog` sends when a
cooldown has expired. -/
def resumePrompt : String :=
  "Your rate limit cooldown is over. Please continue with your previous task. If you hit another rate limit, let Alex know."

/-- The nudge `watchdog` sends to the lead when a project is stalled. -/
def stalledPrompt (pid step : String) : String :=
  "URGENT from Alex: Project '" ++ pid.take 8 ++ "' is stalled at step '" ++ step ++
  "'. Please check on the team and get this moving. Ask Devin or Eric for their status."

/-- The open-ended work prompt of `AutonomousLoop.trigger_growth_task`. -/
def growthPrompt : String :=
  "REVENUE MISSION: Our target is $200. You are an AI agent team running in Docker with access to Vercel, Render, Supabase, GitHub, and HuggingFace. YOU decide what to build and sell. You know Docker, LLMs, APIs, web apps, and agent architecture. Think about what earns money fastest: AI chatbots, SaaS tools, AI APIs, automation bots, web apps with payment, or anything else you can imagine. Pick YOUR best idea, plan it, assign to Devin, get Eric to deploy. Track revenue in /home/node/.openclaw/workspace/revenue.md. SHIP FAST."

/-- `AutonomousLoop.watchdog` (with a live outbound connection): delete every
expired cooldown, re-engage only the first expired agent with the fixed
`resumePrompt` and return; with cooldowns still running, do nothing; with no
cooldowns at all, run stall detection — after 10 minutes of silence nudge
the lead about the first non-completed project, or start growth work. -/
def watchdog (st : BotState) (now : Nat) : BotState × List (String × String) :=
  let expired := st.agent_cooldowns.filter (fun q => now ≥ q.2.untilT)
  let remaining := st.agent_cooldowns.filter (fun q => now < q.2.untilT)
  let st1 := { st with agent_cooldowns := remaining }
  match expired with
  | (agent_id, _) :: _ =>
      let t := trigger_agent st1 agent_id resumePrompt now
      ({ t.1 with last_agent_activity := now }, t.2)
  | [] =>
      if !remaining.isEmpty then (st1, [])
      else
        let silence_seconds :=
          if st1.last_agent_activity > 0 then now - st1.last_agent_activity else 9999
        if silence_seconds ≥ 600 then
          let st2 := { st1 with last_agent_activity := now }
          match st2.active_projects.find? (fun q => q.2.step != "completed") with
          | some (pid, pdata) => trigger_agent st2 "clawdbot-1" (stalledPrompt pid pdata.step) now
          | none => trigger_agent st2 "clawdbot-1" growthPrompt now
        else (st1, [])

end Bot

/-! ## Concrete states used by witnesses and counterexamples -/

/-- A hub with one healthy connection, used to probe unknown-id sends. -/
def cmW : Hub.CMState := ⟨[("b", ⟨true⟩)], [("b", 0)]⟩

/-- A hub in which an agent with the empty-string id is connected. -/
def cmEmptyId : Hub.CMState := ⟨[("", ⟨true⟩), ("x", ⟨true⟩)], [("", 0), ("x", 0)]⟩

/-- A hub with three connections, the middle one failing on send. -/
def cmBC : Hub.CMState :=
  ⟨[("a", ⟨true⟩), ("b", ⟨false⟩), ("c", ⟨true⟩)], [("a", 0), ("b", 0), ("c", 0)]⟩

/-- A hub with three healthy connections. -/
def cmMsg : Hub.CMState :=
  ⟨[("a", ⟨true⟩), ("b", ⟨true⟩), ("c", ⟨true⟩)], [("a", 0), ("b", 0), ("c", 0)]⟩

/-- A pending task with one pre-existing requirements entry. -/
def taskT1 : TaskSvc.Task :=
  ⟨"t1", "creator", "Title", "pending", 1, 0, none, none, [("k", TaskSvc.RVal.s "v")]⟩

def agentAg : TaskSvc.Agent := ⟨"ag"⟩

def asgT1 : TaskSvc.TaskAssignment := ⟨"as1", "t1", "ag", "assigned", 5, none⟩

def dbEmpty : TaskSvc.DB := ⟨[], [], []⟩

def dbNoAgent : TaskSvc.DB := ⟨[taskT1], [], []⟩

def dbFresh : TaskSvc.DB := ⟨[taskT1], [agentAg], []⟩

def dbAssigned : TaskSvc.DB := ⟨[taskT1], [agentAg], [asgT1]⟩

/-- A developer submission with a URL that fails QA gate 1. -/
def qaFailStep (p : Bot.PData) : Bot.PData :=
  Bot.stepProject p (Bot.PEvent.devMsg "code" true false)

/-- A reachable project that failed QA gate 1 four times in a row. -/
def pBad : Bot.PData :=
  qaFailStep (qaFailStep (qaFailStep (qaFailStep
    (Bot.stepProject (Bot.newProject "r" 0) (Bot.PEvent.ctoMsg "plan")))))

/-- Orchestrator state with one rate-limited agent whose cooldown snapshot
holds the instruction it was working on. -/
def stW : Bot.BotState :=
  ⟨[("clawdbot-2", ⟨100, "build the landing page", "Devin"⟩)], 50, []⟩

/-- A fresh project, created at time 0 (deadline 180). -/
def pSweep : Bot.PData := Bot.newProject "r" 0

/-! ## Helper lemmas for the dict model -/

theorem dget_dset_self (d : List (String × α)) (k : String) (v : α) :
    dget (dset d k v) k = some v := by
  induction d with
  | nil => simp [dget, dset]
  | cons p rest ih =>
    by_cases h : p.1 = k
    · simp [dget, dset, h]
    · simp [dget, dset, h, ih]

theorem dget_dset_other (d : List (String × α)) (k k' : String) (v : α) (hk : k' ≠ k) :
    dget (dset d k v) k' = dget d k' := by
  have hkk : ¬ (k = k') := fun hh => hk hh.symm
  induction d with
  | nil => simp [dget, dset, hkk]
  | cons p rest ih =>
    by_cases h : p.1 = k
    · simp [dget, dset, h, hkk]
    · by_cases h' : p.1 = k'
      · simp [dget, dset, h, h', hk, hkk]
      · simp [dget, dset, h, h', ih]

theorem mem_dkeys_dset (d : List (String × α)) (k a : String) (v : α)
    (h : a ∈ dkeys (dset d k v)) : a ∈ dkeys d ∨ a = k := by
  induction d with
  | nil =>
    simp [dkeys, dset] at h
    exact Or.inr h
  | cons p rest ih =>
    by_cases hp : p.1 = k
    · simp [dkeys, dset, hp] at h
      rcases h with h | h
      · exact Or.inr h
      · exact Or.inl (by simp [dkeys, h])
    · simp [dkeys, dset, hp] at h
      rcases h with h | h
      · exact Or.inl (by simp [dkeys, h])
      · rcases ih (by simpa [dkeys] using h) with h' | h'
        · exact Or.inl (by simp [dkeys] at h' ⊢; exact Or.inr h')
        · exact Or.inr h'

theorem keysNodup_dset (d : List (String × α)) (k : String) (v : α)
    (h : keysNodup d) : keysNodup (dset d k v) := by
  induction d with
  | nil => simp [keysNodup, dkeys, dset]
  | cons p rest ih =>
    rw [keysNodup, dkeys] at h
    simp only [List.map_cons, List.nodup_cons] at h
    obtain ⟨hp, hrest⟩ := h
    by_cases hpk : p.1 = k
    · rw [keysNodup, dset]
      simp only [hpk, beq_self_eq_true, if_true]
      rw [dkeys]
      simp only [List.map_cons, List.nodup_cons]
      refine ⟨?_, hrest⟩
      rw [← hpk]
      simpa [dkeys] using hp
    · rw [keysNodup, dset]
      simp only [beq_iff_eq, hpk, if_false]
      rw [dkeys]
      simp only [List.map_cons, List.nodup_cons]
      constructor
      · intro hmem
        rcases mem_dkeys_dset rest k p.1 v (by simpa [dkeys] using hmem) with h' | h'
        · exact hp (by simpa [dkeys] using h')
        · exact hpk h'
      · exact ih hrest

theorem ddel_sublist (d : List (String × α)) (k : String) :
    (ddel d k).Sublist d := by
  induction d with
  | nil => simp [ddel]
  | cons p rest ih =>
    by_cases hp : p.1 = k
    · rw [ddel]
      simp only [hp, beq_self_eq_true, if_true]
      exact List.sublist_cons_self p rest
    · rw [ddel]
      simp only [beq_iff_eq, hp, if_false]
      exact ih.cons₂ p

theorem keysNodup_ddel (d : List (String × α)) (k : String)
    (h : keysNodup d) : keysNodup (ddel d k) := by
  unfold keysNodup dkeys at h ⊢
  exact h.sublist ((ddel_sublist d k).map Prod.fst)

theorem length_dset_mem (d : List (String × α)) (k : String) (v : α)
    (h : k ∈ dkeys d) : (dset d k v).length = d.length := by
  induction d with
  | nil => simp [dkeys] at h
  | cons p rest ih =>
    by_cases hp : p.1 = k
    · simp [dset, hp]
    · have : k ∈ dkeys rest := by
        simp [dkeys] at h
        rcases h with h | h
        · exact absurd h.symm hp
        · simpa [dkeys] using h
      simp [dset, hp, ih this]

theorem dget_eq_none_of_not_mem (d : List (String × α)) (k : String)
    (h : k ∉ dkeys d) : dget d k = none := by
  induction d with
  | nil => rfl
  | cons p rest ih =>
    simp [dkeys] at h
    have hp : ¬ p.1 = k := fun hh => h.1 hh.symm
    simp [dget, hp]
    exact ih (by simpa [dkeys] using h.2)

theorem dget_mem_dkeys (d : List (String × α)) (k : String) (v : α)
    (h : dget d k = some v) : k ∈ dkeys d := by
  induction d with
  | nil => simp [dget] at h
  | cons p rest ih =>
    by_cases hp : p.1 = k
    · simp [dkeys, hp]
    · simp [dget, hp] at h
      simp [dkeys]
      exact Or.inr (by simpa [dkeys] using ih h)

/-! ## Helper lemmas for the Connection Hub -/

theorem dget_isSome_of_mem (d : List (String × α)) (k : String)
    (h : k ∈ dkeys d) : (dget d k).isSome = true := by
  induction d with
  | nil => simp [dkeys] at h
  | cons p rest ih =>
    by_cases hp : p.1 = k
    · simp [dget, hp]
    · simp [dkeys] at h
      rcases h with h | h
      · exact absurd h.symm hp
      · simp [dget, hp]
        exact ih (by simpa [dkeys] using h)

theorem keysNodup_disconnect (cm : Hub.CMState) (a : String)
    (h : keysNodup cm.active_connections) :
    keysNodup (Hub.disconnect cm a).active_connections := by
  unfold Hub.disconnect
  cases hc : (dget cm.active_connections a).isSome with
  | true => simp only [hc, if_true]; exact keysNodup_ddel _ _ h
  | false => simp only [hc, Bool.false_eq_true, if_false]; exact h

theorem keysNodup_foldl_disconnect (l : List String) (cm : Hub.CMState)
    (h : keysNodup cm.active_connections) :
    keysNodup ((l.foldl (fun s a => Hub.disconnect s a) cm).active_connections) := by
  induction l generalizing cm with
  | nil => exact h
  | cons a rest ih => exact ih _ (keysNodup_disconnect cm a h)

theorem ddel_eq_filter (d : List (String × α)) (k : String) (h : keysNodup d) :
    ddel d k = d.filter (fun q => q.1 != k) := by
  induction d with
  | nil => rfl
  | cons p rest ih =>
    rw [keysNodup, dkeys] at h
    simp only [List.map_cons, List.nodup_cons] at h
    by_cases hp : p.1 = k
    · rw [ddel, List.filter]
      simp only [hp, beq_self_eq_true, if_true, bne_self_eq_false]
      rw [List.filter_eq_self.mpr]
      intro q hq
      simp only [bne_iff_ne, ne_eq]
      intro hqk
      exact h.1 (by rw [hp, ← hqk]; exact List.mem_map_of_mem Prod.fst hq)
    · rw [ddel, List.filter]
      have hbne : (p.1 != k) = true := by simp [hp]
      simp only [beq_iff_eq, hp, if_false, hbne]
      rw [ih h.2]

theorem disconnect_active_eq (cm : Hub.CMState) (k : String)
    (h : keysNodup cm.active_connections) :
    (Hub.disconnect cm k).active_connections
      = cm.active_connections.filter (fun q => q.1 != k) := by
  unfold Hub.disconnect
  cases hc : (dget cm.active_connections k).isSome with
  | true => simp only [hc, if_true]; exact ddel_eq_filter _ _ h
  | false =>
    simp only [hc, Bool.false_eq_true, if_false]
    rw [List.filter_eq_self.mpr]
    intro q hq
    simp only [bne_iff_ne, ne_eq]
    intro hqk
    have hmem : k ∈ dkeys cm.active_connections := by
      rw [← hqk]
      exact List.mem_map_of_mem Prod.fst hq
    rw [dget_isSome_of_mem _ _ hmem] at hc
    exact absurd hc (by simp)

theorem foldl_disconnect_active (l : List String) (cm : Hub.CMState)
    (h : keysNodup cm.active_connections) :
    ((l.foldl (fun s a => Hub.disconnect s a) cm).active_connections)
      = cm.active_connections.filter (fun q => !(l.contains q.1)) := by
  induction l generalizing cm with
  | nil => simp
  | cons a rest ih =>
    rw [List.foldl_cons, ih _ (keysNodup_disconnect cm a h),
        disconnect_active_eq cm a h, List.filter_filter]
    apply List.filter_congr
    intro q _
    simp only [List.contains_cons, Bool.not_or, Bool.and_comm]
    rfl

theorem broadcastPass_fst (tag : String) (excl : Option String) (l : List (String × Hub.WS)) :
    (Hub.broadcastPass tag excl l).1
      = (l.filter (fun q => !Hub.bskip excl q.1 && q.2.sendOk)).map (fun q => (q.1, tag)) := by
  induction l with
  | nil => rfl
  | cons p rest ih =>
    obtain ⟨a, ws⟩ := p
    by_cases hs : Hub.bskip excl a = true
    · simp [Hub.broadcastPass, List.filter, hs, ih]
    · have hs' : Hub.bskip excl a = false := by simpa using hs
      cases hok : ws.sendOk with
      | true => simp [Hub.broadcastPass, List.filter, hs', hok, ih]
      | false => simp [Hub.broadcastPass, List.filter, hs', hok, ih]

theorem broadcastPass_snd (tag : String) (excl : Option String) (l : List (String × Hub.WS)) :
    (Hub.broadcastPass tag excl l).2
      = (l.filter (fun q => !Hub.bskip excl q.1 && !q.2.sendOk)).map Prod.fst := by
  induction l with
  | nil => rfl
  | cons p rest ih =>
    obtain ⟨a, ws⟩ := p
    by_cases hs : Hub.bskip excl a = true
    · simp [Hub.broadcastPass, List.filter, hs, ih]
    · have hs' : Hub.bskip excl a = false := by simpa using hs
      cases hok : ws.sendOk with
      | true => simp [Hub.broadcastPass, List.filter, hs', hok, ih]
      | false => simp [Hub.broadcastPass, List.filter, hs', hok, ih]

theorem filter_map_fst_nodup (l : List (String × α)) (p : String × α → Bool)
    (h : keysNodup l) : ((l.filter p).map Prod.fst).Nodup := by
  unfold keysNodup dkeys at h
  exact h.sublist ((List.filter_sublist l).map Prod.fst)

theorem eq_of_mem_keysNodup (l : List (String × α)) (h : keysNodup l)
    (q r : String × α) (hq : q ∈ l) (hr : r ∈ l) (hk : r.1 = q.1) : r = q := by
  induction l with
  | nil => simp at hq
  | cons p rest ih =>
    rw [keysNodup, dkeys] at h
    simp only [List.map_cons, List.nodup_cons] at h
    rcases List.mem_cons.mp hq with hq1 | hq2
    · rcases List.mem_cons.mp hr with hr1 | hr2
      · rw [hq1, hr1]
      · exfalso
        apply h.1
        have hpr : r.1 = p.1 := by rw [hk, hq1]
        rw [← hpr]
        exact List.mem_map_of_mem Prod.fst hr2
    · rcases List.mem_cons.mp hr with hr1 | hr2
      · exfalso
        apply h.1
        have hpq : q.1 = p.1 := by rw [← hk, hr1]
        rw [← hpq]
        exact List.mem_map_of_mem Prod.fst hq2
      · exact ih h.2 hq2 hr2

/-! ## Claim theorems: Connection Hub -/

/-- **C6 (counterexample).** The claim says `broadcast(envelope, excludeId)`
sends to every agent connected at the start *except `excludeId`*.  With an
agent registered under the empty-string id and `excludeId = ""`, the Python
truthiness guard `if exclude_agent_id and ...` skips nobody, and the
excluded agent receives the envelope. -/
theorem broadcast_excludes_empty_id_counterexample :
    (Hub.broadcast cmEmptyId "m" (some "")).2 = [("", "m"), ("x", "m")] := by
  decide

/-- **C6 (amended).** `broadcast(envelope, excludeId)` attempts delivery to
every agent of the connection snapshot except a *non-empty* `excludeId`
(Python truthiness makes `excludeId=""` exclude no one, per `bskip`):
the deliveries are exactly the non-skipped agents whose send succeeded, the
agents whose send failed are pairwise distinct and are unregistered — each
exactly once — only after the iteration over the snapshot completes, leaving
precisely the skipped and healthy agents registered. -/
theorem broadcast_snapshot_spec (cm : Hub.CMState) (tag : String) (excl : Option String)
    (h : keysNodup cm.active_connections) :
    (Hub.broadcast cm tag excl).2
      = (cm.active_connections.filter
          (fun q => !Hub.bskip excl q.1 && q.2.sendOk)).map (fun q => (q.1, tag))
    ∧ ((cm.active_connections.filter
          (fun q => !Hub.bskip excl q.1 && !q.2.sendOk)).map Prod.fst).Nodup
    ∧ (Hub.broadcast cm tag excl).1.active_connections
      = cm.active_connections.filter (fun q => Hub.bskip excl q.1 || q.2.sendOk) := by
  refine ⟨?_, ?_, ?_⟩
  · simpa [Hub.broadcast] using broadcastPass_fst tag excl cm.active_connections
  · exact filter_map_fst_nodup _ _ h
  · show ((Hub.broadcastPass tag excl cm.active_connections).2.foldl
        (fun s a => Hub.disconnect s a) cm).active_connections = _
    rw [broadcastPass_snd, foldl_disconnect_active _ _ h]
    apply List.filter_congr
    intro q hq
    have hcont : ((cm.active_connections.filter
        (fun r => !Hub.bskip excl r.1 && !r.2.sendOk)).map Prod.fst).contains q.1
        = (!Hub.bskip excl q.1 && !q.2.sendOk) := by
      cases hp : (!Hub.bskip excl q.1 && !q.2.sendOk) with
      | true =>
        have hqf : q ∈ cm.active_connections.filter
            (fun r => !Hub.bskip excl r.1 && !r.2.sendOk) :=
          List.mem_filter.mpr ⟨hq, hp⟩
        exact List.elem_iff.mpr (List.mem_map_of_mem Prod.fst hqf)
      | false =>
        rw [Bool.eq_false_iff]
        intro hcon
        obtain ⟨r, hr, hrk⟩ := List.mem_map.mp (List.elem_iff.mp hcon)
        have hrl := List.mem_filter.mp hr
        have : r = q := eq_of_mem_keysNodup _ h q r hq hrl.1 hrk
        rw [this] at hrl
        rw [hrl.2] at hp
        exact Bool.true_eq_false.mp hp
    rw [hcont]
    cases hb : Hub.bskip excl q.1 <;> cases hs : q.2.sendOk <;> simp

/-- **C6 (amended) witness** at a concrete hub: three agents, the middle one
failing, excluding `"a"`. -/
theorem broadcast_snapshot_spec_witness :
    keysNodup cmBC.active_connections
    ∧ (Hub.broadcast cmBC "m" (some "a")).2 = [("c", "m")]
    ∧ (Hub.broadcast cmBC "m" (some "a")).1.active_connections
        = [("a", ⟨true⟩), ("c", ⟨true⟩)] := by
  refine ⟨by decide, ?_, ?_⟩
  · rw [(broadcast_snapshot_spec cmBC "m" (some "a") (by decide)).1]
    decide
  · rw [(broadcast_snapshot_spec cmBC "m" (some "a") (by decide)).2.2]
    decide

/-- **C7.** For every agent id at most one connection handle is registered:
`connect` replaces rather than duplicates an existing handle (same key set
size, new handle looked up, other agents untouched) and every hub operation
preserves distinctness of the registered ids. -/
theorem connect_replaces_at_most_one_handle (cm : Hub.CMState) (a : String)
    (ws : Hub.WS) (now : Nat) (tag : String) (excl : Option String)
    (h : keysNodup cm.active_connections) :
    (keysNodup (Hub.connect cm a ws now).active_connections
      ∧ dget (Hub.connect cm a ws now).active_connections a = some ws
      ∧ (∀ b, b ≠ a → dget (Hub.connect cm a ws now).active_connections b
            = dget cm.active_connections b)
      ∧ (a ∈ dkeys cm.active_connections →
          (Hub.connect cm a ws now).active_connections.length
            = cm.active_connections.length))
    ∧ keysNodup (Hub.disconnect cm a).active_connections
    ∧ keysNodup (Hub.send_personal_message cm tag a).1.active_connections
    ∧ keysNodup (Hub.broadcast cm tag excl).1.active_connections := by
  refine ⟨⟨keysNodup_dset _ _ _ h, dget_dset_self _ _ _,
          fun b hb => dget_dset_other _ _ _ _ hb,
          fun hmem => length_dset_mem _ _ _ hmem⟩, keysNodup_disconnect cm a h, ?_, ?_⟩
  · cases hd : dget cm.active_connections a with
    | none => simpa [Hub.send_personal_message, hd] using h
    | some w =>
      cases hok : w.sendOk with
      | true => simpa [Hub.send_personal_message, hd, hok] using h
      | false =>
        simpa [Hub.send_personal_message, hd, hok] using keysNodup_disconnect cm a h
  · simpa [Hub.broadcast] using
      keysNodup_foldl_disconnect
        ((Hub.broadcastPass tag excl cm.active_connections).2) cm h

/-- **C7 witness** at a concrete hub, registering a replacement handle for a
connected agent. -/
theorem connect_replaces_witness :
    keysNodup cmBC.active_connections
    ∧ dget (Hub.connect cmBC "b" ⟨true⟩ 7).active_connections "b" = some ⟨true⟩
    ∧ (Hub.connect cmBC "b" ⟨true⟩ 7).active_connections.length
        = cmBC.active_connections.length :=
  ⟨by decide,
   (connect_replaces_at_most_one_handle cmBC "b" ⟨true⟩ 7 "m" none (by decide)).1.2.1,
   (connect_replaces_at_most_one_handle cmBC "b" ⟨true⟩ 7 "m" none (by decide)).1.2.2.2
     (by decide)⟩

/-- **C10.** `send_personal_message` to an agent with no registered handle
returns `False` and leaves the connection registry and metadata map
untouched: nothing is delivered, nobody is unregistered, nothing raises. -/
theorem send_personal_unknown_id_noop (cm : Hub.CMState) (tag a : String)
    (h : dget cm.active_connections a = none) :
    Hub.send_personal_message cm tag a = (cm, false, []) := by
  unfold Hub.send_personal_message
  rw [h]

/-- **C10 witness** at a concrete hub with `"a"` not connected. -/
theorem send_personal_unknown_id_noop_witness :
    dget cmW.active_connections "a" = none
    ∧ Hub.send_personal_message cmW "x" "a" = (cmW, false, []) :=
  ⟨by decide, send_personal_unknown_id_noop cmW "x" "a" (by decide)⟩

/-! ## Claim theorems: Event Router -/

theorem runLoop_props (l : List Events.Inbound) :
    ((Events.runLoop l).disconnected = l.any Events.inboundTerminates)
    ∧ ((Events.runLoop l).leftBroadcast = (Events.runLoop l).disconnected)
    ∧ ((Events.runLoop l).exit.isSome = l.any Events.inboundTerminates)
    ∧ ((Events.runLoop l).processed
        = (l.takeWhile (fun i => !Events.inboundTerminates i)).length) := by
  induction l with
  | nil => exact ⟨rfl, rfl, rfl, rfl⟩
  | cons i rest ih =>
    obtain ⟨h1, h2, h3, h4⟩ := ih
    cases i with
    | disconnect =>
      refine ⟨?_, rfl, ?_, ?_⟩ <;>
        simp [Events.runLoop, Events.inboundTerminates, List.takeWhile]
    | malformed =>
      refine ⟨?_, rfl, ?_, ?_⟩ <;>
        simp [Events.runLoop, Events.inboundTerminates, List.takeWhile]
    | msg tag r =>
      cases hterm : (r && Events.knownTag tag) with
      | true =>
        refine ⟨?_, ?_, ?_, ?_⟩ <;>
          simp [Events.runLoop, Events.inboundTerminates, hterm, List.takeWhile]
      | false =>
        refine ⟨?_, ?_, ?_, ?_⟩ <;>
          simp [Events.runLoop, Events.inboundTerminates, hterm, List.takeWhile,
                h1, h2, h3, h4]

/-- **C1 (counterexample).** The claim says a malformed payload is logged
and dropped with the loop continuing, and that the loop terminates —
unregistering the agent and broadcasting `agent:left` — only on a genuine
disconnect.  On the inbound sequence `[malformed, heartbeat]` the loop
terminates at the malformed payload (no message is ever processed), the
agent is unregistered and `agent:left` is broadcast, yet no
`WebSocketDisconnect` occurred. -/
theorem dispatch_loop_counterexample :
    (Events.runLoop
        [Events.Inbound.malformed, Events.Inbound.msg "agent:heartbeat" false]).disconnected
      = true
    ∧ (Events.runLoop
        [Events.Inbound.malformed, Events.Inbound.msg "agent:heartbeat" false]).processed
      = 0
    ∧ (Events.runLoop
        [Events.Inbound.malformed, Events.Inbound.msg "agent:heartbeat" false]).leftBroadcast
      = true
    ∧ Events.Inbound.disconnect
        ∉ [Events.Inbound.malformed, Events.Inbound.msg "agent:heartbeat" false] := by
  decide

/-- **C1 (amended).** The dispatch loop terminates at the first raising
item — a genuine disconnect, a malformed payload, or a dispatched handler
that raises — and in every such case it unregisters the agent and broadcasts
`agent:left`; messages before that point are processed in arrival order, and
a message whose handler does not raise — in particular any message with an
unrecognised tag, which is only logged — leaves the loop waiting for the
next inbound message. -/
theorem dispatch_loop_spec (l : List Events.Inbound) :
    ((Events.runLoop l).disconnected = l.any Events.inboundTerminates)
    ∧ ((Events.runLoop l).leftBroadcast = (Events.runLoop l).disconnected)
    ∧ ((Events.runLoop l).exit.isSome = l.any Events.inboundTerminates)
    ∧ ((Events.runLoop l).processed
        = (l.takeWhile (fun i => !Events.inboundTerminates i)).length)
    ∧ (∀ tag, Events.knownTag tag = false →
        Events.inboundTerminates (Events.Inbound.msg tag true) = false) :=
  ⟨(runLoop_props l).1, (runLoop_props l).2.1, (runLoop_props l).2.2.1,
   (runLoop_props l).2.2.2,
   fun _ h => by simp [Events.inboundTerminates, h]⟩

/-- **C1 (amended) witness** on a concrete inbound sequence ending in a
genuine disconnect. -/
theorem dispatch_loop_spec_witness :
    (Events.runLoop
        [Events.Inbound.msg "agent:heartbeat" false, Events.Inbound.disconnect]).disconnected
      = [Events.Inbound.msg "agent:heartbeat" false,
         Events.Inbound.disconnect].any Events.inboundTerminates :=
  (dispatch_loop_spec
    [Events.Inbound.msg "agent:heartbeat" false, Events.Inbound.disconnect]).1

theorem send_personal_ok (cm : Hub.CMState) (tag a : String) (ws : Hub.WS)
    (h : dget cm.active_connections a = some ws) (hok : ws.sendOk = true) :
    Hub.send_personal_message cm tag a = (cm, true, [(a, tag)]) := by
  unfold Hub.send_personal_message
  rw [h]
  simp [hok]

theorem send_to_agents_all_ok (cm : Hub.CMState) (tag : String) (ids : List String)
    (h : ∀ r ∈ ids, ∃ ws : Hub.WS,
        dget cm.active_connections r = some ws ∧ ws.sendOk = true) :
    Hub.send_to_agents cm tag ids = (cm, ids.map (fun r => (r, tag))) := by
  induction ids with
  | nil => rfl
  | cons a rest ih =>
    obtain ⟨ws, hws, hok⟩ := h a (by simp)
    simp only [Hub.send_to_agents]
    rw [send_personal_ok cm tag a ws hws hok, ih (fun r hr => h r (by simp [hr]))]
    simp

/-- **C4 (counterexample).** The claim says an empty recipients list makes
the router broadcast the message to all connected agents.  With agents
`b`, `c` connected besides the sender `a`, a `message:send` with empty
recipients produces only the `message:sent` acknowledgement — nothing is
delivered to anyone (`if recipients:` skips the delivery branch entirely). -/
theorem message_send_empty_counterexample :
    (Events.handle_message_send cmMsg [] "a" ⟨"hi", []⟩).2.2 = [("a", "message:sent")]
    ∧ dget cmMsg.active_connections "b" = some ⟨true⟩
    ∧ dget cmMsg.active_connections "c" = some ⟨true⟩ := by
  decide

/-- **C4 (amended).** `message:send` first persists the message through the
message-store collaborator, then — when the recipients list is non-empty —
delivers `message:received` to exactly the named recipients in order, and
finally acknowledges the sender with `message:sent`; an empty recipients
list is *not* broadcast: the message is only persisted and acknowledged. -/
theorem message_send_spec (cm : Hub.CMState) (store : List (String × String))
    (sender : String) (d : Events.MsgData)
    (hrec : ∀ r ∈ d.recipients, ∃ ws : Hub.WS,
        dget cm.active_connections r = some ws ∧ ws.sendOk = true)
    (hs : ∃ ws : Hub.WS, dget cm.active_connections sender = some ws ∧ ws.sendOk = true) :
    Events.handle_message_send cm store sender d
      = (cm, store ++ [(sender, d.content)],
         d.recipients.map (fun r => (r, "message:received"))
           ++ [(sender, "message:sent")]) := by
  obtain ⟨ws, hws, hok⟩ := hs
  by_cases he : d.recipients.isEmpty
  · have he' : d.recipients = [] := List.isEmpty_iff.mp he
    simp [Events.handle_message_send, he, he',
          send_personal_ok cm "message:sent" sender ws hws hok]
  · simp [Events.handle_message_send, he,
          send_to_agents_all_ok cm "message:received" d.recipients hrec,
          send_personal_ok cm "message:sent" sender ws hws hok]

/-- **C4 (amended) witness** at a concrete hub: two named recipients,
persisted first, delivery to exactly those two, sender acknowledged last. -/
theorem message_send_spec_witness :
    Events.handle_message_send cmMsg [] "a" ⟨"hi", ["b", "c"]⟩
      = (cmMsg, [("a", "hi")],
         [("b", "message:received"), ("c", "message:received"),
          ("a", "message:sent")]) :=
  message_send_spec cmMsg [] "a" ⟨"hi", ["b", "c"]⟩
    (by
      intro r hr
      simp only [List.mem_cons, List.not_mem_nil, or_false] at hr
      rcases hr with rfl | rfl
      · exact ⟨⟨true⟩, by decide, rfl⟩
      · exact ⟨⟨true⟩, by decide, rfl⟩)
    ⟨⟨true⟩, by decide, rfl⟩

/-! ## Claim theorems: Task & Assignment state machine -/

theorem get_task_id (db : TaskSvc.DB) (tid : String) (task : TaskSvc.Task)
    (h : TaskSvc.get_task db tid = some task) : task.id = tid := by
  unfold TaskSvc.get_task at h
  have := List.find?_some h
  simpa using this

theorem find?_set_task (tasks : List TaskSvc.Task) (tid : String)
    (f : TaskSvc.Task → TaskSvc.Task)
    (hf : ∀ t, t.id = tid → (f t).id = tid) :
    (TaskSvc.set_task tasks tid f).find? (fun t => t.id == tid)
      = (tasks.find? (fun t => t.id == tid)).map f := by
  induction tasks with
  | nil => rfl
  | cons t rest ih =>
    by_cases ht : t.id = tid
    · have hft : (f t).id = tid := hf t ht
      simp [TaskSvc.set_task, ht, List.find?_cons_of_pos, hft]
    · have hft : (t.id == tid) = false := by simp [ht]
      simp only [TaskSvc.set_task, List.map_cons, hft, Bool.false_eq_true, if_false,
                 List.find?_cons, cond_false]
      simpa [TaskSvc.set_task] using ih

theorem updFirst_of_find?_none (p : α → Bool) (f : α → α) (l : List α)
    (h : l.find? p = none) : TaskSvc.updFirst p f l = l := by
  induction l with
  | nil => rfl
  | cons x xs ih =>
    cases hp : p x with
    | true => rw [List.find?_cons_of_pos _ hp] at h; exact absurd h (by simp)
    | false =>
      rw [List.find?_cons_of_neg _ (by simp [hp])] at h
      simp [TaskSvc.updFirst, hp, ih h]

theorem updFirst_append_first_match (p : α → Bool) (f : α → α)
    (l1 : List α) (a : α) (l2 : List α)
    (h1 : ∀ b ∈ l1, p b = false) (ha : p a = true) :
    TaskSvc.updFirst p f (l1 ++ a :: l2) = l1 ++ f a :: l2 := by
  induction l1 with
  | nil => simp [TaskSvc.updFirst, ha]
  | cons x xs ih =>
    have hx : p x = false := h1 x (by simp)
    simp [TaskSvc.updFirst, hx, ih (fun b hb => h1 b (by simp [hb]))]

/-- **C8.** `assign_task` fails with `TaskNotFound` when the task is missing,
with `AgentNotFound` when the agent identity is unknown, with
`AssignmentConflict` when an assignment for the `(taskId, agentId)` pair
already exists; otherwise it appends an assignment in status `assigned` for
that pair and flips the task's status to `assigned`. -/
theorem assign_task_spec (db : TaskSvc.DB) (tid aid nid : String) (now : Nat) :
    (TaskSvc.get_task db tid = none →
        TaskSvc.assign_task db tid aid nid now = .error .taskNotFound)
    ∧ ((TaskSvc.get_task db tid).isSome = true →
        db.agents.find? (fun a => a.id == aid) = none →
        TaskSvc.assign_task db tid aid nid now = .error .agentNotFound)
    ∧ ((TaskSvc.get_task db tid).isSome = true →
        (db.agents.find? (fun a => a.id == aid)).isSome = true →
        (TaskSvc.find_assignment db tid aid).isSome = true →
        TaskSvc.assign_task db tid aid nid now = .error .assignmentConflict)
    ∧ (∀ task, TaskSvc.get_task db tid = some task →
        (db.agents.find? (fun a => a.id == aid)).isSome = true →
        TaskSvc.find_assignment db tid aid = none →
        ∃ db' asg,
          TaskSvc.assign_task db tid aid nid now = .ok (db', asg)
          ∧ asg.status = "assigned" ∧ asg.task_id = tid ∧ asg.agent_id = aid
          ∧ db'.assignments = db.assignments ++ [asg]
          ∧ TaskSvc.get_task db' tid = some { task with status := "assigned" }) := by
  refine ⟨?_, ?_, ?_, ?_⟩
  · intro h
    unfold TaskSvc.assign_task
    rw [h]
  · intro h1 h2
    obtain ⟨task, htask⟩ := Option.isSome_iff_exists.mp h1
    unfold TaskSvc.assign_task
    rw [htask, h2]
  · intro h1 h2 h3
    obtain ⟨task, htask⟩ := Option.isSome_iff_exists.mp h1
    obtain ⟨ag, hag⟩ := Option.isSome_iff_exists.mp h2
    obtain ⟨ex, hex⟩ := Option.isSome_iff_exists.mp h3
    unfold TaskSvc.assign_task
    rw [htask, hag, hex]
  · intro task htask h2 h3
    obtain ⟨ag, hag⟩ := Option.isSome_iff_exists.mp h2
    have hrun : TaskSvc.assign_task db tid aid nid now
        = .ok ({ db with
                  tasks := TaskSvc.set_task db.tasks tid
                    (fun t => { t with status := "assigned" }),
                  assignments := db.assignments
                    ++ [⟨nid, tid, aid, "assigned", now, none⟩] },
               ⟨nid, tid, aid, "assigned", now, none⟩) := by
      unfold TaskSvc.assign_task
      rw [htask, hag, h3]
    refine ⟨_, _, hrun, rfl, rfl, rfl, rfl, ?_⟩
    show (TaskSvc.set_task db.tasks tid
        (fun t => { t with status := "assigned" })).find? (fun t => t.id == tid)
      = _
    rw [find?_set_task db.tasks tid (fun t => { t with status := "assigned" })
          (fun t ht => ht)]
    rw [show db.tasks.find? (fun t => t.id == tid) = some task from htask]
    rfl

/-- **C8 witness**: the four branches exercised on concrete databases —
missing task, missing agent, duplicate pair, and a successful assignment. -/
theorem assign_task_spec_witness :
    TaskSvc.assign_task dbEmpty "t1" "ag" "as9" 5 = .error .taskNotFound
    ∧ TaskSvc.assign_task dbNoAgent "t1" "ag" "as9" 5 = .error .agentNotFound
    ∧ TaskSvc.assign_task dbAssigned "t1" "ag" "as9" 5 = .error .assignmentConflict
    ∧ (∃ db' asg,
        TaskSvc.assign_task dbFresh "t1" "ag" "as9" 5 = .ok (db', asg)
        ∧ asg.status = "assigned" ∧ asg.task_id = "t1" ∧ asg.agent_id = "ag"
        ∧ db'.assignments = dbFresh.assignments ++ [asg]
        ∧ TaskSvc.get_task db' "t1" = some { taskT1 with status := "assigned" }) :=
  ⟨(assign_task_spec dbEmpty "t1" "ag" "as9" 5).1 (by decide),
   (assign_task_spec dbNoAgent "t1" "ag" "as9" 5).2.1 (by decide) (by decide),
   (assign_task_spec dbAssigned "t1" "ag" "as9" 5).2.2.1 (by decide) (by decide)
     (by decide),
   (assign_task_spec dbFresh "t1" "ag" "as9" 5).2.2.2 taskT1 (by decide) (by decide)
     (by decide)⟩

/-- **C9.** `complete_task` with a (truthy) result stamps the task
`completed` with `completed_at = now`, merges the result into the task's
requirements under the key `"result"` while leaving every other requirements
entry unchanged, and — when an assignment for the `(taskId, agentId)` pair
exists — flips the first such assignment to `completed`/`completed_at`,
leaving all other assignments untouched; when no matching assignment exists
the assignment table is unchanged and the task-side update still succeeds. -/
theorem complete_task_spec (db : TaskSvc.DB) (tid aid : String)
    (res : List (String × String)) (now : Nat) (task : TaskSvc.Task)
    (htask : TaskSvc.get_task db tid = some task)
    (hres : res ≠ []) :
    ∃ db' task',
      TaskSvc.complete_task db tid aid (some res) now = some (db', task')
      ∧ task'.status = "completed"
      ∧ task'.completed_at = some now
      ∧ dget task'.requirements "result" = some (TaskSvc.RVal.d res)
      ∧ (∀ k, k ≠ "result" → dget task'.requirements k = dget task.requirements k)
      ∧ (TaskSvc.find_assignment db tid aid = none →
          db'.assignments = db.assignments)
      ∧ (∀ l1 a l2, db.assignments = l1 ++ a :: l2 →
          (∀ b ∈ l1, (b.task_id == tid && b.agent_id == aid) = false) →
          (a.task_id == tid && a.agent_id == aid) = true →
          db'.assignments
            = l1 ++ { a with status := "completed", completed_at := some now } :: l2)
      ∧ TaskSvc.get_task db' tid = some task' := by
  have htruthy : TaskSvc.resultTruthy (some res) = true := by
    simp [TaskSvc.resultTruthy, hres]
  have hrun : TaskSvc.complete_task db tid aid (some res) now
      = some
        ({ db with
            tasks := TaskSvc.set_task db.tasks tid (fun _ =>
              { task with status := "completed", completed_at := some now,
                          requirements := dset task.requirements "result"
                            (TaskSvc.RVal.d res) }),
            assignments := TaskSvc.updFirst
              (fun a => a.task_id == tid && a.agent_id == aid)
              (fun a => { a with status := "completed", completed_at := some now })
              db.assignments },
         { task with status := "completed", completed_at := some now,
                     requirements := dset task.requirements "result"
                       (TaskSvc.RVal.d res) }) := by
    unfold TaskSvc.complete_task
    rw [htask]
    simp [htruthy]
  refine ⟨_, _, hrun, rfl, rfl, dget_dset_self _ _ _,
          fun k hk => dget_dset_other _ _ _ _ hk, ?_, ?_, ?_⟩
  · intro hnone
    exact updFirst_of_find?_none _ _ _ hnone
  · intro l1 a l2 heq hl1 ha
    show TaskSvc.updFirst _ _ db.assignments = _
    rw [heq]
    exact updFirst_append_first_match _ _ l1 a l2 hl1 ha
  · show (TaskSvc.set_task db.tasks tid _).find? (fun t => t.id == tid) = _
    rw [find?_set_task db.tasks tid
          (fun _ => { task with status := "completed", completed_at := some now,
                                requirements := dset task.requirements "result"
                                  (TaskSvc.RVal.d res) })
          (fun t ht => get_task_id db tid task htask)]
    rw [show db.tasks.find? (fun t => t.id == tid) = some task from htask]
    rfl

/-- **C9 witness** on a concrete database with a matching assignment,
checking the task-side stamps, the merged `result` key, the untouched
pre-existing requirements entry, and the flipped assignment. -/
theorem complete_task_spec_witness :
    TaskSvc.get_task dbAssigned "t1" = some taskT1
    ∧ ([("url", "u")] : List (String × String)) ≠ []
    ∧ (∃ db' task',
        TaskSvc.complete_task dbAssigned "t1" "ag" (some [("url", "u")]) 9
          = some (db', task')
        ∧ task'.status = "completed"
        ∧ task'.completed_at = some 9
        ∧ dget task'.requirements "result"
            = some (TaskSvc.RVal.d [("url", "u")])
        ∧ (∀ k, k ≠ "result" →
            dget task'.requirements k = dget taskT1.requirements k)
        ∧ (TaskSvc.find_assignment dbAssigned "t1" "ag" = none →
            db'.assignments = dbAssigned.assignments)
        ∧ (∀ l1 a l2, dbAssigned.assignments = l1 ++ a :: l2 →
            (∀ b ∈ l1, (b.task_id == "t1" && b.agent_id == "ag") = false) →
            (a.task_id == "t1" && a.agent_id == "ag") = true →
            db'.assignments
              = l1 ++ { a with status := "completed", completed_at := some 9 } :: l2)
        ∧ TaskSvc.get_task db' "t1" = some task') :=
  ⟨by decide, by decide,
   complete_task_spec dbAssigned "t1" "ag" [("url", "u")] 9 taskT1
     (by decide) (by decide)⟩

/-! ## Claim theorems: Pipeline Orchestrator -/

/-- **C2.** On a sweep of the stuck-project checker (period
`CHECK_STUCK_INTERVAL = 30`), a project in a waiting step whose deadline has
elapsed is retried while `retry_count < MAX_RETRIES` — the prompt for its
current step is re-sent to the expected responder, `retry_count` is
incremented and the deadline reset — and once `retry_count = MAX_RETRIES`
the next elapsed deadline marks it `failed`; a failed project is never
prompted by any later sweep.  The sweep applies this treatment to every
project of the active map. -/
theorem timeout_sweep_spec (now : Nat) (p : Bot.PData) (pid : String)
    (ps : List (String × Bot.PData))
    (hw : Bot.isWaitingStep p.step = true)
    (ht : now > p.timeout_at) :
    (p.retry_count < Bot.MAX_RETRIES →
        Bot.sweepProject now p
          = ({ p with retry_count := p.retry_count + 1, last_attempt := now,
                      timeout_at := now + Bot.AGENT_TIMEOUT_SECONDS },
             [Bot.stepResponder p.step]))
    ∧ (p.retry_count = Bot.MAX_RETRIES →
        Bot.sweepProject now p = ({ p with step := "failed", status := "failed" }, []))
    ∧ (∀ now2, Bot.sweepProject now2 { p with step := "failed", status := "failed" }
          = ({ p with step := "failed", status := "failed" }, []))
    ∧ ((pid, p) ∈ ps →
        (pid, (Bot.sweepProject now p).1) ∈ (Bot.check_stuck_sweep now ps).1)
    ∧ Bot.CHECK_STUCK_INTERVAL = 30 ∧ Bot.MAX_RETRIES = 3 := by
  have hsteps : p.step = "waiting_for_cto" ∨ p.step = "waiting_for_developer"
      ∨ p.step = "waiting_for_devops" := by
    simpa [Bot.isWaitingStep, or_assoc] using hw
  refine ⟨?_, ?_, ?_, ?_, rfl, rfl⟩
  · intro hr
    unfold Bot.sweepProject
    rw [if_pos hw, if_pos ht, if_pos hr]
    unfold Bot.retry_project_step Bot.stepResponder
    rcases hsteps with h | h | h <;> simp [h]
  · intro hr
    unfold Bot.sweepProject
    rw [if_pos hw, if_pos ht, if_neg (by simp [hr])]
  · intro now2
    unfold Bot.sweepProject
    rw [if_neg (by simp [Bot.isWaitingStep])]
  · intro hmem
    exact List.mem_map.mpr ⟨(pid, p), hmem, rfl⟩

/-- **C2 witness** on a fresh project whose 180-second deadline has elapsed
at `now = 200`. -/
theorem timeout_sweep_spec_witness :
    Bot.isWaitingStep pSweep.step = true
    ∧ 200 > pSweep.timeout_at
    ∧ (pSweep.retry_count < Bot.MAX_RETRIES →
        Bot.sweepProject 200 pSweep
          = ({ pSweep with retry_count := pSweep.retry_count + 1, last_attempt := 200,
                           timeout_at := 200 + Bot.AGENT_TIMEOUT_SECONDS },
             [Bot.stepResponder pSweep.step])) :=
  ⟨by decide, by decide,
   (timeout_sweep_spec 200 pSweep "p" [] (by decide) (by decide)).1⟩

/-- **C3 (counterexample).** The claim says a per-stage retry counter
strictly above the maximum (3) forces the project's step to `failed`.  But
the QA-gate retry counters are unbounded: after four straight QA-gate-1
failures the reachable project `pBad` has `qa1_retries = 4 > 3` while its
step is still `waiting_for_developer`, not `failed`. -/
theorem qa_retry_unbounded_counterexample :
    Bot.ReachableP pBad
    ∧ pBad.qa1_retries > Bot.MAX_RETRIES
    ∧ pBad.step ≠ "failed" := by
  refine ⟨?_, by decide, by decide⟩
  have h0 := Bot.ReachableP.init "r" 0
  have h1 := Bot.ReachableP.step _ (Bot.PEvent.ctoMsg "plan") h0
  have h2 := Bot.ReachableP.step _ (Bot.PEvent.devMsg "code" true false) h1
  have h3 := Bot.ReachableP.step _ (Bot.PEvent.devMsg "code" true false) h2
  have h4 := Bot.ReachableP.step _ (Bot.PEvent.devMsg "code" true false) h3
  have h5 := Bot.ReachableP.step _ (Bot.PEvent.devMsg "code" true false) h4
  exact h5

/-- **C3 (amended).** The timeout retry counter `retry_count` never exceeds
`MAX_RETRIES` in any reachable project state: the sweep only increments it
under the guard `retry_count < MAX_RETRIES` (marking the project `failed`
instead once the bound is reached) and the manual retry resets it before
incrementing.  The QA counters `qa1_retries`/`qa2_retries`, by contrast, are
unbounded (see the counterexample). -/
theorem retry_count_bounded (p : Bot.PData) (h : Bot.ReachableP p) :
    p.retry_count ≤ Bot.MAX_RETRIES := by
  induction h with
  | init req now => exact Nat.zero_le _
  | step p e hp ih =>
    cases e with
    | ctoMsg c =>
      show (Bot.handle_cto_message p c).retry_count ≤ _
      by_cases hs : (p.step == "waiting_for_cto") = true <;>
        simp [Bot.handle_cto_message, hs] <;> exact ih
    | devMsg c u q =>
      show (Bot.handle_developer_message p c u q).retry_count ≤ _
      cases hu : u <;> cases hq : q <;>
        by_cases hs : (p.step == "waiting_for_developer") = true <;>
        simp [Bot.handle_developer_message, hs] <;> exact ih
    | devopsMsg c u q =>
      show (Bot.handle_devops_message p c u q).retry_count ≤ _
      cases hu : u <;> cases hq : q <;>
        by_cases hs : (p.step == "waiting_for_devops") = true <;>
        simp [Bot.handle_devops_message, hs] <;> exact ih
    | sweep now =>
      show (Bot.sweepProject now p).1.retry_count ≤ _
      by_cases hw : Bot.isWaitingStep p.step = true
      · by_cases ht : now > p.timeout_at
        · by_cases hr : p.retry_count < Bot.MAX_RETRIES
          · simp only [Bot.sweepProject, hw, ht, hr, if_true]
            exact hr
          · simp only [Bot.sweepProject, hw, ht, hr, if_true, if_false]
            exact ih
        · simp only [Bot.sweepProject, hw, ht, if_true, if_false]
          exact ih
      · simp only [Bot.sweepProject, hw, Bool.not_eq_true] at hw ⊢
        simp only [hw, Bool.false_eq_true, if_false]
        exact ih
    | manualRetry now =>
      show (Bot.retry_project_step now { p with retry_count := 0 }).1.retry_count ≤ _
      simp [Bot.retry_project_step, Bot.MAX_RETRIES]

/-- **C3 (amended) witness** at a freshly created project. -/
theorem retry_count_bounded_witness :
    (Bot.newProject "x" 0).retry_count ≤ Bot.MAX_RETRIES :=
  retry_count_bounded (Bot.newProject "x" 0) (Bot.ReachableP.init "x" 0)

/-- **C5 (counterexample).** The claim says that once the cooldown expires,
the instruction held in R's cooldown snapshot is reissued to R exactly once.
At a state where `clawdbot-2`'s cooldown holds the snapshot
`"build the landing page"`, the watchdog pass after expiry sends exactly one
trigger — but its content is the fixed generic `resumePrompt`, not the held
snapshot, so the held instruction is reissued zero times, never once. -/
theorem cooldown_resume_counterexample :
    (Bot.watchdog stW 100).2
      = [("clawdbot-2", "[SYSTEM TRIGGER] " ++ Bot.resumePrompt)]
    ∧ stW.agent_cooldowns.map (fun q => q.2.task) = ["build the landing page"]
    ∧ "[SYSTEM TRIGGER] " ++ Bot.resumePrompt ≠ "build the landing page" := by
  decide

/-- **C5 (amended).** While an agent's cooldown has not expired every
trigger to it is suppressed (dropped, with no state change); on the first
watchdog pass at or after expiry the cooldown entry is removed and one
trigger carrying the fixed generic `resumePrompt` — not the held snapshot —
is sent to the agent; after that pass the agent has no cooldown entry, and
a subsequent watchdog pass within the 10-minute silence threshold sends
nothing further. -/
theorem cooldown_spec (st : Bot.BotState) (r prompt : String) (cd : Bot.Cooldown)
    (now now2 : Nat) :
    (dget st.agent_cooldowns r = some cd → now < cd.untilT →
        Bot.trigger_agent st r prompt now = (st, []))
    ∧ (st.agent_cooldowns = [(r, cd)] → cd.untilT ≤ now →
        Bot.watchdog st now
          = ({ st with agent_cooldowns := [], last_agent_activity := now },
             [(r, "[SYSTEM TRIGGER] " ++ Bot.resumePrompt)]))
    ∧ (st.agent_cooldowns = [(r, cd)] → cd.untilT ≤ now → 0 < now →
        now2 - now < 600 →
        (Bot.watchdog (Bot.watchdog st now).1 now2).2 = []) := by
  have hwd : ∀ hcs : st.agent_cooldowns = [(r, cd)], cd.untilT ≤ now →
      Bot.watchdog st now
        = ({ st with agent_cooldowns := [], last_agent_activity := now },
           [(r, "[SYSTEM TRIGGER] " ++ Bot.resumePrompt)]) := by
    intro hcs hle
    have hnlt : ¬ (now < cd.untilT) := Nat.not_lt.mpr hle
    unfold Bot.watchdog
    rw [hcs]
    simp [hle, hnlt, Bot.trigger_agent, dget]
  refine ⟨?_, hwd, ?_⟩
  · intro hcd hlt
    unfold Bot.trigger_agent
    rw [hcd]
    simp [hlt]
  · intro hcs hle hpos hlt
    rw [hwd hcs hle]
    have hns : ¬ (600 ≤ now2 - now) := Nat.not_le.mpr hlt
    unfold Bot.watchdog
    simp [hpos, hns]

/-- **C5 (amended) witness** on the concrete cooled-down state `stW`:
suppression at `now = 60`, removal plus one generic resume at `now = 100`,
and silence on the following pass at `now = 150`. -/
theorem cooldown_spec_witness :
    Bot.trigger_agent stW "clawdbot-2" "go" 60 = (stW, [])
    ∧ Bot.watchdog stW 100
        = ({ stW with agent_cooldowns := [], last_agent_activity := 100 },
           [("clawdbot-2", "[SYSTEM TRIGGER] " ++ Bot.resumePrompt)])
    ∧ (Bot.watchdog (Bot.watchdog stW 100).1 150).2 = [] :=
  ⟨(cooldown_spec stW "clawdbot-2" "go"
      ⟨100, "build the landing page", "Devin"⟩ 60 150).1 (by decide) (by decide),
   (cooldown_spec stW "clawdbot-2" "x"
      ⟨100, "build the landing page", "Devin"⟩ 100 150).2.1 (by decide) (by decide),
   (cooldown_spec stW "clawdbot-2" "x"
      ⟨100, "build the landing page", "Devin"⟩ 100 150).2.2 (by decide) (by decide)
     (by decide) (by decide)⟩
